import Mathlib

/-!
Verification development for the quotes-scraper repository (`src/scraper.py`,
`src/config.py`).  The Python code is shallowly embedded: each relevant
method is translated to an executable Lean definition, with external
effects (HTTP fetches, SQLite storage, the wall clock) made explicit as
parameters or state.  Theorems at the end of the file settle the claims
about the code.
-/

/-- Data model for one scraped quotation (`Quote` dataclass, scraper.py:41-47). -/
structure Quote where
  text : String
  author : String
  tags : List String
  scraped_at : String
deriving Repr, DecidableEq

/-- `ScraperConfig.RETRY_ATTEMPTS` (scraper.py:58). -/
def RETRY_ATTEMPTS : Nat := 3

/-- `ScraperConfig.MAX_PAGES` (scraper.py:59), the default page cap. -/
def MAX_PAGES : Nat := 100

/-! ## Store (`DatabaseManager`, scraper.py:196-283)

The `quotes` table (scraper.py:206-215) is modelled as the list of its rows
in insertion order; the `UNIQUE` constraint on `text` is what makes the
per-row `INSERT` of `insert_quotes` raise `sqlite3.IntegrityError` exactly
when a row with the same `text` is already present. -/

/-- A row of `quotes` duplicates the batch record's fields; the table state
is just a list of `Quote`s (id/created_at columns carry no logic). -/
abbrev QuotesTable := List Quote

/-- The `UNIQUE(text)` check: does the table already hold a row with this
`text`?  (sqlite raises `IntegrityError` on the conflicting `INSERT`.) -/
def textStored (db : QuotesTable) (q : Quote) : Bool :=
  db.any (fun r => r.text = q.text)

/-- The `for quote in quotes` loop of `insert_quotes` (scraper.py:233-241):
each record is inserted unless its `text` is already stored (the
`IntegrityError` is swallowed and the counter not bumped). -/
def insertLoop : List Quote → Nat → QuotesTable → Nat × QuotesTable
  | [], inserted, db => (inserted, db)
  | q :: rest, inserted, db =>
    if textStored db q then insertLoop rest inserted db
    else insertLoop rest (inserted + 1) (db ++ [q])

/-- `DatabaseManager.insert_quotes` (scraper.py:229-243): returns the count
of newly inserted rows together with the table after the call. -/
def insert_quotes (quotes : List Quote) (db : QuotesTable) : Nat × QuotesTable :=
  insertLoop quotes 0 db

/-- A row of `execution_history` (scraper.py:216-225) as written by
`log_execution` (the id/date columns carry no logic). -/
structure ExecRecord where
  quotes_scraped : Nat
  quotes_inserted : Nat
  status : String
  screenshot_path : String
deriving Repr, DecidableEq

/-- The two tables owned by `DatabaseManager`. -/
structure DB where
  quotes : QuotesTable
  history : List ExecRecord
deriving Repr, DecidableEq

/-- `DatabaseManager.log_execution` (scraper.py:245-253).  The method body
has no exception handling: when the storage engine is unavailable the
sqlite call raises, modelled by `Except.error` (a raised exception
propagating to the caller); otherwise the ledger row is appended. -/
def log_execution (available : Bool) (scraped inserted : Nat)
    (status screenshot : String) (db : DB) : Except String DB :=
  if available then
    .ok { db with history := db.history ++ [⟨scraped, inserted, status, screenshot⟩] }
  else
    .error "database unavailable"

/-! ### The inserted count, characterised (claim-side formulation)

`freshInBatch qs stored i` is the claim's predicate on position `i` of the
batch: the record's `text` is neither among the texts `stored` before the
call nor equal to the text of an earlier record of the same batch. -/

def freshInBatch (qs : List Quote) (stored : List String) (i : Nat) : Bool :=
  match qs[i]? with
  | none => false
  | some q => !(stored.contains q.text) && !(((qs.take i).map Quote.text).contains q.text)

/-- Number of batch positions that are fresh in the sense of the claim. -/
def freshCountSpec (qs : List Quote) (stored : List String) : Nat :=
  ((List.range qs.length).filter (freshInBatch qs stored)).length

/-- Recursive helper mirroring the left-to-right scan: `seen` accumulates
the stored texts plus the texts of the batch records already scanned. -/
def freshCountAux : List Quote → List String → Nat
  | [], _ => 0
  | q :: rest, seen =>
    (if seen.contains q.text then 0 else 1) + freshCountAux rest (q.text :: seen)

/-! ## Fetcher (`QuotesScraper.fetch_page`, scraper.py:296-309)

The network is a parameter: `results i` is the outcome of the `i`-th
HTTP GET of this call (counting from 0) — `some doc` when the request
succeeds with a 2xx status, `none` when `requests` raises a
`RequestException` (timeout, connection error, or `raise_for_status` on a
non-2xx response).  The pair returned carries the parsed document (or
`none` after retry exhaustion, scraper.py:309) together with the number of
GET calls issued; the `time.sleep(2 ** attempt)` backoff has no effect on
either and is not modelled. -/

def fetchLoop (results : Nat → Option α) : Nat → Nat → Option α × Nat
  | 0, calls => (none, calls)
  | remaining + 1, calls =>
    match results calls with
    | some doc => (some doc, calls + 1)
    | none => fetchLoop results remaining (calls + 1)

/-- `QuotesScraper.fetch_page`: `for attempt in range(RETRY_ATTEMPTS)`. -/
def fetch_page (results : Nat → Option α) : Option α × Nat :=
  fetchLoop results RETRY_ATTEMPTS 0

/-! ## Extractor (`QuotesScraper.extract_quotes_dynamic`, scraper.py:311-337)

A parsed document is modelled by what the code observes of it through
BeautifulSoup: the list of containers matched by
`soup.select('[class*="quote"]')` in document order, and per container the
results of `select_one('[class*="text"]')`, `select_one('[class*="author"]')`
and `select('[class*="tag"]')`.  The `Option`/`List` fields hold the
`get_text(strip=True)` string of each matched sub-element; `none` models a
missing sub-element, on which `.get_text` raises `AttributeError`. -/

structure Container where
  text_elem : Option String
  author_elem : Option String
  tag_elems : List String
deriving Repr, DecidableEq

/-- A parsed document, as observed through the selectors. -/
abbrev Document := List Container

/-- Text cleaning (scraper.py:322): `.replace('"', '').replace('"', '')` —
both calls remove the ASCII double-quote character, so the composition
drops every `'"'` from the string. -/
def clean_text (s : String) : String :=
  ((s.toList.filter (fun c => c ≠ '"')).filter (fun c => c ≠ '"')).asString

/-- Author cleaning (scraper.py:323): Python's `.replace('by ', '')`
removes every (case-sensitive) occurrence of the three-character pattern
`b`,`y`,`' '`, scanning left to right. -/
def cleanAuthorChars : List Char → List Char
  | 'b' :: 'y' :: ' ' :: rest => cleanAuthorChars rest
  | c :: rest => c :: cleanAuthorChars rest
  | [] => []

def clean_author (s : String) : String :=
  (cleanAuthorChars s.toList).asString

/-- One iteration of the `for container in quote_containers` loop
(scraper.py:316-334): building `text` or `author` raises `AttributeError`
when the sub-element is missing (`select_one` returned `None`), which the
`except AttributeError: continue` turns into skipping the container.
`tags` falls back to `[]` when no tag sub-elements matched, which equals
mapping over the empty list. -/
def extractContainer (now : String) (c : Container) : Option Quote :=
  match c.text_elem, c.author_elem with
  | some t, some a =>
    some { text := clean_text t, author := clean_author a,
           tags := c.tag_elems, scraped_at := now }
  | _, _ => none

/-- `QuotesScraper.extract_quotes_dynamic` (scraper.py:311-337); `now` is
the `datetime.now().isoformat()` stamp taken at extraction time. -/
def extract_quotes_dynamic (now : String) (soup : Document) : List Quote :=
  soup.filterMap (extractContainer now)

/-! ## Paginator (`QuotesScraper.scrape_all_pages`, scraper.py:339-378)

The page sequence is a parameter: `pages n` is what this run observes of
page `n` — `none` when `fetch_page` exhausted its retries (so
`extract_quotes_dynamic(None)` raises `AttributeError`, caught at
scraper.py:373), and `some pg` when the fetch succeeded, where `pg.quotes`
is the records extracted from it and `pg.hasNext` records whether
`soup.select_one('li.next')` found a "next page" affordance.  The function
additionally returns the list of page numbers fetched, in order, as the
observable trace of visits.  The screenshot branch (scraper.py:353-357)
touches neither the loop nor the accumulated records. -/

structure Page where
  quotes : List Quote
  hasNext : Bool
deriving Repr, DecidableEq

/-- The `while page_num <= max_pages` loop (scraper.py:359-375).  `fuel`
bounds the recursion; it is called with more fuel than the loop can
consume, so the `0` case is never reached.  Note the loop body assigns
`next_btn = soup.select_one('li.next')` (scraper.py:367) but never tests
it: the binding below is dead, exactly as in the source. -/
def scrapeLoop (pages : Nat → Option Page) (maxPages : Nat) :
    Nat → Nat → List Quote → List Nat → List Quote × List Nat
  | 0, _, acc, visited => (acc, visited)
  | fuel + 1, pageNum, acc, visited =>
    if pageNum ≤ maxPages then
      match pages pageNum with
      | none => (acc, visited ++ [pageNum])
      | some pg =>
        let acc' := acc ++ pg.quotes
        let _nextBtn := pg.hasNext
        if pageNum + 1 > maxPages then (acc', visited ++ [pageNum])
        else scrapeLoop pages maxPages fuel (pageNum + 1) acc' (visited ++ [pageNum])
    else (acc, visited)

/-- `QuotesScraper.scrape_all_pages` with an explicit `max_pages` argument
(the `None` default resolves to `ScraperConfig.MAX_PAGES`): returns the
accumulated records and the trace of visited page numbers. -/
def scrape_all_pages (pages : Nat → Option Page) (maxPages : Nat) :
    List Quote × List Nat :=
  scrapeLoop pages maxPages (maxPages + 1) 1 [] []

/-! ## Scheduler (`TaskScheduler`, scraper.py:486-561)

`schedule_scrape` (scraper.py:493-518) parses `date_str` as `DD/MM/YYYY`
via `day, month, year = map(int, date_str.split('/'))` and `time_str` as
`HH:MM`, builds `datetime(year, month, day, hour, minute)`, registers a
one-shot job whose id is derived from the run date, and appends a
`status: 'scheduled'` entry to `self.scheduled_jobs`.  Every failure mode
(wrong number of fields, non-integer field, out-of-range datetime, or a
conflicting job id inside `add_job`) raises inside the `try` and is caught
by `except Exception` (scraper.py:516-518), which logs and returns
`False` with the job list untouched. -/

/-- Split a character list at a separator, Python `str.split(sep)` style:
`"".split(sep) == [""]` and separators delimit possibly empty fields. -/
def splitChar (sep : Char) : List Char → List (List Char)
  | [] => [[]]
  | c :: rest =>
    let r := splitChar sep rest
    if c = sep then [] :: r
    else
      match r with
      | [] => [[c]]
      | grp :: grps => (c :: grp) :: grps

def digitVal (c : Char) : Option Nat :=
  if '0' ≤ c ∧ c ≤ '9' then some (c.toNat - '0'.toNat) else none

def parseDigitsAux : List Char → Nat → Option Nat
  | [], acc => some acc
  | c :: rest, acc =>
    match digitVal c with
    | some d => parseDigitsAux rest (acc * 10 + d)
    | none => none

/-- A non-empty all-digit character list, as a number. -/
def parseDigits : List Char → Option Nat
  | [] => none
  | cs => parseDigitsAux cs 0

def isSpaceChar (c : Char) : Bool :=
  c = ' ' || c = '\t' || c = '\n' || c = '\r'

def trimSpaces (cs : List Char) : List Char :=
  ((cs.dropWhile isSpaceChar).reverse.dropWhile isSpaceChar).reverse

/-- Python `int(...)` on the ASCII-decimal fragment it accepts here:
surrounding whitespace, an optional sign, then decimal digits.  Any other
input raises `ValueError`, modelled by `none`. -/
def parseIntChars (cs : List Char) : Option Int :=
  match trimSpaces cs with
  | '+' :: rest => (parseDigits rest).map Int.ofNat
  | '-' :: rest => (parseDigits rest).map (fun n => -(Int.ofNat n))
  | rest => (parseDigits rest).map Int.ofNat

/-- The wall-clock instant `datetime(year, month, day, hour, minute)`
validates and stores (seconds default to 0 and never vary here). -/
structure RunDate where
  year : Int
  month : Int
  day : Int
  hour : Int
  minute : Int
deriving Repr, DecidableEq

def isLeapYear (y : Int) : Bool :=
  (y % 4 = 0 && y % 100 ≠ 0) || y % 400 = 0

def daysInMonth (y m : Int) : Int :=
  if m = 2 then (if isLeapYear y then 29 else 28)
  else if m = 4 ∨ m = 6 ∨ m = 9 ∨ m = 11 then 30
  else 31

/-- The range checks `datetime.__new__` performs (`MINYEAR = 1`,
`MAXYEAR = 9999`); an out-of-range component raises `ValueError`. -/
def validDateTime (d : RunDate) : Bool :=
  1 ≤ d.year && d.year ≤ 9999 &&
  1 ≤ d.month && d.month ≤ 12 &&
  1 ≤ d.day && d.day ≤ daysInMonth d.year d.month &&
  0 ≤ d.hour && d.hour ≤ 23 &&
  0 ≤ d.minute && d.minute ≤ 59

/-- The parsing-and-validation prefix of `schedule_scrape`
(scraper.py:496-498): `none` means some step raised (caught at
scraper.py:516). -/
def parse_run_date (date_str time_str : String) : Option RunDate :=
  match splitChar '/' date_str.toList, splitChar ':' time_str.toList with
  | [d, m, y], [h, mi] =>
    match parseIntChars d, parseIntChars m, parseIntChars y,
          parseIntChars h, parseIntChars mi with
    | some day, some month, some year, some hour, some minute =>
      let rd : RunDate := ⟨year, month, day, hour, minute⟩
      if validDateTime rd then some rd else none
    | _, _, _, _, _ => none
  | _, _ => none

/-- An entry of `TaskScheduler.scheduled_jobs` (scraper.py:507-511).  The
apscheduler job id `scrape_<run_date.strftime("%Y%m%d_%H%M%S")>` is a
bijective image of `run_date` (seconds are always 0), so the `RunDate`
itself stands for the id. -/
structure Job where
  run_date : RunDate
  status : String
deriving Repr, DecidableEq

/-- `TaskScheduler.schedule_scrape` (scraper.py:493-518) acting on the
in-memory job list: `true` means the method returned `True` and appended
the new entry; `false` is the `except` path (parse/validation failure, or
`add_job` raising `ConflictingIdError` on a duplicate id). -/
def schedule_scrape (date_str time_str : String) (jobs : List Job) :
    Bool × List Job :=
  match parse_run_date date_str time_str with
  | none => (false, jobs)
  | some rd =>
    if jobs.any (fun j => j.run_date = rd) then (false, jobs)
    else (true, jobs ++ [{ run_date := rd, status := "scheduled" }])

/-- The full in-process state a scheduled run touches: the scheduler's job
list and the database. -/
structure SchedulerState where
  jobs : List Job
  db : DB
deriving Repr, DecidableEq

/-- `TaskScheduler.run_scrape_job` (scraper.py:520-541): scrape all pages
with the default cap, insert the batch, append the ledger row.  The
`except Exception` at scraper.py:540 catches anything raised inside —
in particular a failing ledger append — logs it, and returns; the record
inserts were committed by `insert_quotes`'s own connection before the
ledger write, so they survive.  The job list is not mentioned anywhere in
the method body. -/
def run_scrape_job (pages : Nat → Option Page) (ledgerAvailable : Bool)
    (st : SchedulerState) : SchedulerState :=
  let quotes := (scrape_all_pages pages MAX_PAGES).1
  let res := insert_quotes quotes st.db.quotes
  let db1 : DB := { st.db with quotes := res.2 }
  let db2 :=
    match log_execution ledgerAvailable quotes.length res.1 "success" "N/A" db1 with
    | .ok d => d
    | .error _ => db1
  { st with db := db2 }

/-- A container has both the text and the author sub-element. -/
def containerComplete (c : Container) : Bool :=
  c.text_elem.isSome && c.author_elem.isSome

/-! ### Store lemmas -/

theorem textStored_append (db : QuotesTable) (r q : Quote) :
    textStored (db ++ [r]) q = (textStored db q || (r.text = q.text : Bool)) := by
  simp [textStored, List.any_append]

theorem textStored_mono (db : QuotesTable) (r q : Quote)
    (h : textStored db q = true) : textStored (db ++ [r]) q = true := by
  simp [textStored_append, h]

/-- The table only grows: a stored text stays stored across `insertLoop`. -/
theorem insertLoop_textStored_mono (qs : List Quote) :
    ∀ (n : Nat) (db : QuotesTable) (q : Quote), textStored db q = true →
      textStored (insertLoop qs n db).2 q = true := by
  induction qs with
  | nil => intro n db q h; simpa [insertLoop] using h
  | cons p rest ih =>
    intro n db q h
    by_cases hp : textStored db p = true
    · simpa [insertLoop, hp] using ih n db q h
    · simp only [insertLoop, hp, if_neg, Bool.not_eq_true] at *
      exact ih (n + 1) (db ++ [p]) q (textStored_mono db p q h)

/-- After `insert_quotes`, every record of the batch has its text stored
(either it was already there or its row was just inserted). -/
theorem insertLoop_covers (qs : List Quote) :
    ∀ (n : Nat) (db : QuotesTable) (q : Quote), q ∈ qs →
      textStored (insertLoop qs n db).2 q = true := by
  induction qs with
  | nil => intro n db q h; cases h
  | cons p rest ih =>
    intro n db q h
    rcases List.mem_cons.mp h with rfl | hrest
    · by_cases hp : textStored db q = true
      · simp only [insertLoop, hp, if_pos]
        exact insertLoop_textStored_mono rest n db q hp
      · simp only [insertLoop, hp, if_neg, Bool.not_eq_true]
        refine insertLoop_textStored_mono rest (n + 1) (db ++ [q]) q ?_
        simp [textStored_append]
    · by_cases hp : textStored db p = true
      · simp only [insertLoop, hp, if_pos]
        exact ih n db q hrest
      · simp only [insertLoop, hp, if_neg, Bool.not_eq_true]
        exact ih (n + 1) (db ++ [p]) q hrest

/-- When every record of the batch is already stored, `insertLoop` inserts
nothing and leaves the table untouched. -/
theorem insertLoop_all_dup (qs : List Quote) :
    ∀ (n : Nat) (db : QuotesTable), (∀ q ∈ qs, textStored db q = true) →
      insertLoop qs n db = (n, db) := by
  induction qs with
  | nil => intro n db _; rfl
  | cons p rest ih =>
    intro n db h
    have hp : textStored db p = true := h p (List.mem_cons_self p rest)
    simp only [insertLoop, hp, if_pos]
    exact ih n db (fun q hq => h q (List.mem_cons_of_mem p hq))

/-- The running counter never decreases. -/
theorem insertLoop_count_le (qs : List Quote) :
    ∀ (n : Nat) (db : QuotesTable), n ≤ (insertLoop qs n db).1 := by
  induction qs with
  | nil => intro n db; exact Nat.le_refl n
  | cons p rest ih =>
    intro n db
    by_cases hp : textStored db p = true
    · simpa [insertLoop, hp] using ih n db
    · simp only [insertLoop, hp, if_neg, Bool.not_eq_true]
      exact Nat.le_trans (Nat.le_succ n) (ih (n + 1) (db ++ [p]))

theorem freshInBatch_zero (q : Quote) (rest : List Quote) (stored : List String) :
    freshInBatch (q :: rest) stored 0 = !(stored.contains q.text) := by
  simp [freshInBatch]

theorem freshInBatch_succ (q : Quote) (rest : List Quote) (stored : List String) (i : Nat) :
    freshInBatch (q :: rest) stored (i + 1) = freshInBatch rest (q.text :: stored) i := by
  simp only [freshInBatch, List.getElem?_cons_succ]
  cases hr : rest[i]? with
  | none => rfl
  | some r =>
    simp only [List.take_succ_cons, List.map_cons, List.contains_cons]
    cases hq : (r.text == q.text) <;> cases hs : stored.contains r.text <;>
      simp [hq, hs, Bool.beq_comm]

theorem freshCountSpec_cons (q : Quote) (rest : List Quote) (stored : List String) :
    freshCountSpec (q :: rest) stored =
      (if stored.contains q.text then 0 else 1) + freshCountSpec rest (q.text :: stored) := by
  simp only [freshCountSpec, List.length_cons, List.range_succ_eq_map,
    List.filter_cons, freshInBatch_zero, List.filter_map, List.length_map]
  have hcomp : (freshInBatch (q :: rest) stored ∘ Nat.succ) = freshInBatch rest (q.text :: stored) := by
    funext i
    exact freshInBatch_succ q rest stored i
  rw [hcomp]
  cases hs : stored.contains q.text <;> simp [hs, Nat.add_comm]

theorem freshCountAux_eq_spec (qs : List Quote) :
    ∀ stored : List String, freshCountAux qs stored = freshCountSpec qs stored := by
  induction qs with
  | nil => intro stored; rfl
  | cons q rest ih =>
    intro stored
    rw [freshCountSpec_cons, freshCountAux, ih (q.text :: stored)]

/-- `freshCountAux` only looks at `seen` through membership of texts. -/
theorem freshCountAux_congr (qs : List Quote) :
    ∀ s₁ s₂ : List String, (∀ t : String, s₁.contains t = s₂.contains t) →
      freshCountAux qs s₁ = freshCountAux qs s₂ := by
  induction qs with
  | nil => intro _ _ _; rfl
  | cons q rest ih =>
    intro s₁ s₂ h
    have h' : ∀ t : String, (q.text :: s₁).contains t = (q.text :: s₂).contains t := by
      intro t
      simp only [List.contains_cons, h t]
    rw [freshCountAux, freshCountAux, h q.text, ih _ _ h']

theorem contains_eq_decide_mem (l : List String) (t : String) :
    l.contains t = decide (t ∈ l) :=
  List.elem_eq_mem t l

theorem textStored_eq_contains (db : QuotesTable) (q : Quote) :
    textStored db q = (db.map Quote.text).contains q.text := by
  rw [contains_eq_decide_mem, Bool.eq_iff_iff]
  simp only [textStored, List.any_eq_true, decide_eq_true_eq, List.mem_map]

/-- The counter of `insertLoop` computes exactly the fresh count. -/
theorem insertLoop_count (qs : List Quote) :
    ∀ (n : Nat) (db : QuotesTable),
      (insertLoop qs n db).1 = n + freshCountAux qs (db.map Quote.text) := by
  induction qs with
  | nil => intro n db; simp [insertLoop, freshCountAux]
  | cons q rest ih =>
    intro n db
    by_cases hq : textStored db q = true
    · have hc : (db.map Quote.text).contains q.text = true := by
        rw [← textStored_eq_contains]; exact hq
      rw [insertLoop, if_pos hq, ih n db, freshCountAux, hc]
      have hmem : ∀ t : String, (q.text :: db.map Quote.text).contains t =
          (db.map Quote.text).contains t := by
        intro t
        rw [contains_eq_decide_mem, contains_eq_decide_mem]
        have hmemq : q.text ∈ db.map Quote.text := by
          have := hc
          rw [contains_eq_decide_mem] at this
          exact of_decide_eq_true this
        apply decide_eq_decide.mpr
        constructor
        · intro ht
          rcases List.mem_cons.mp ht with rfl | h
          · exact hmemq
          · exact h
        · intro ht; exact List.mem_cons_of_mem _ ht
      rw [freshCountAux_congr rest _ _ hmem]
      simp
    · have hc : (db.map Quote.text).contains q.text = false := by
        rw [← textStored_eq_contains]
        exact Bool.eq_false_iff.mpr hq
      rw [insertLoop, if_neg (by simp [hq]), ih (n + 1) (db ++ [q]),
        freshCountAux, hc]
      have hmem : ∀ t : String, ((db ++ [q]).map Quote.text).contains t =
          (q.text :: db.map Quote.text).contains t := by
        intro t
        rw [contains_eq_decide_mem, contains_eq_decide_mem]
        apply decide_eq_decide.mpr
        simp only [List.map_append, List.map_cons, List.map_nil, List.mem_append,
          List.mem_singleton, List.mem_cons]
        tauto
      rw [freshCountAux_congr rest _ _ hmem, if_neg Bool.false_ne_true]
      omega

/-- The table after `insertLoop` is the old table with the fresh rows
appended; in particular its length grows by the counter's increase. -/
theorem insertLoop_length (qs : List Quote) :
    ∀ (n : Nat) (db : QuotesTable),
      (insertLoop qs n db).2.length + n = db.length + (insertLoop qs n db).1 := by
  induction qs with
  | nil => intro n db; simp [insertLoop]
  | cons q rest ih =>
    intro n db
    by_cases hq : textStored db q = true
    · rw [insertLoop, if_pos hq]; exact ih n db
    · rw [insertLoop, if_neg (by simp [hq])]
      have := ih (n + 1) (db ++ [q])
      simp only [List.length_append, List.length_singleton] at this
      omega

/-! ## Paginator lemmas -/

/-- Invariant of the page loop when every fetch succeeds: with enough fuel
the loop fetches every page from `pageNum` up to the cap `m`. -/
theorem scrapeLoop_visits (pages : Nat → Option Page) (m : Nat)
    (hall : ∀ n : Nat, (pages n).isSome = true) :
    ∀ (fuel pageNum : Nat) (acc : List Quote) (visited : List Nat),
      pageNum ≤ m → m + 1 ≤ pageNum + fuel →
      (scrapeLoop pages m fuel pageNum acc visited).2 =
        visited ++ List.range' pageNum (m + 1 - pageNum) := by
  intro fuel
  induction fuel with
  | zero => intro pageNum acc visited h1 h2; omega
  | succ fuel ih =>
    intro pageNum acc visited h1 h2
    obtain ⟨pg, hpg⟩ := Option.isSome_iff_exists.mp (hall pageNum)
    rw [scrapeLoop, if_pos h1, hpg]
    by_cases hlast : pageNum + 1 > m
    · have hm : pageNum = m := by omega
      have hn : m + 1 - pageNum = 1 := by omega
      simp [hlast, hm, hn, List.range'_one]
    · have hn : m + 1 - pageNum = (m + 1 - (pageNum + 1)) + 1 := by omega
      simp only [hlast, if_neg, if_false]
      rw [ih (pageNum + 1) (acc ++ pg.quotes) (visited ++ [pageNum])
            (by omega) (by omega), hn, List.range'_succ]
      simp

/-! ## Claims -/

/-- C8: for every cap `m ≥ 1`, over a page sequence in which every fetch
succeeds and every page shows a "next page" affordance,
`scrape_all_pages` with `max_pages = m` visits exactly pages `1..m`
(the visit trace is `[1, 2, ..., m]`) and then stops. -/
theorem scrape_all_pages_visits_cap (pages : Nat → Option Page) (m : Nat)
    (hm : 1 ≤ m)
    (hnext : ∀ n : Nat, ∃ pg : Page, pages n = some pg ∧ pg.hasNext = true) :
    (scrape_all_pages pages m).2 = List.range' 1 m := by
  have hall : ∀ n : Nat, (pages n).isSome = true := by
    intro n
    obtain ⟨pg, hpg, _⟩ := hnext n
    simp [hpg]
  have := scrapeLoop_visits pages m hall (m + 1) 1 [] [] hm (by omega)
  simpa [scrape_all_pages] using this

/-- Witness for C8 at `m = 2` over an unbounded next-affordance chain. -/
theorem scrape_all_pages_visits_cap_witness :
    (scrape_all_pages (fun _ => some ⟨[], true⟩) 2).2 = List.range' 1 2 :=
  scrape_all_pages_visits_cap (fun _ => some ⟨[], true⟩) 2 (by omega)
    (fun _ => ⟨⟨[], true⟩, rfl, rfl⟩)

/-- C1 (code bug): over the page sequence in which every fetch succeeds
and *no* page has a "next page" affordance — so page 1 is already the
first page without the affordance — the code still visits page 2 when
`max_pages = 2`: the visit trace is `[1, 2]`, not `[1]`.  The loop body
assigns `next_btn` (scraper.py:367) but never tests it, so the absence of
the affordance never terminates the loop. -/
theorem scrape_all_pages_ignores_absent_next :
    scrape_all_pages (fun _ => some ⟨[], false⟩) 2 = ([], [1, 2]) := rfl

/-- C3: when every attempt fails with a transport-level error,
`fetch_page` returns no document and has issued exactly
`RETRY_ATTEMPTS` HTTP GET calls. -/
theorem fetch_page_all_fail {α : Type} (results : Nat → Option α)
    (h : ∀ i : Nat, i < RETRY_ATTEMPTS → results i = none) :
    fetch_page results = (none, RETRY_ATTEMPTS) := by
  have h0 := h 0 (by decide)
  have h1 := h 1 (by decide)
  have h2 := h 2 (by decide)
  simp [fetch_page, RETRY_ATTEMPTS, fetchLoop, h0, h1, h2]

/-- Witness for C3: an always-failing fetch sequence. -/
theorem fetch_page_all_fail_witness :
    fetch_page (fun _ => (none : Option Nat)) = (none, RETRY_ATTEMPTS) :=
  fetch_page_all_fail (fun _ => none) (fun _ _ => rfl)


theorem extractContainer_complete (now : String) (c : Container)
    (h : containerComplete c = true) :
    ∃ q : Quote, extractContainer now c = some q := by
  cases h1 : c.text_elem with
  | none => simp [containerComplete, h1] at h
  | some t =>
    cases h2 : c.author_elem with
    | none => simp [containerComplete, h2] at h
    | some a =>
      refine ⟨{ text := clean_text t, author := clean_author a,
                tags := c.tag_elems, scraped_at := now }, ?_⟩
      simp [extractContainer, h1, h2]

theorem extractContainer_incomplete (now : String) (c : Container)
    (h : containerComplete c = false) :
    extractContainer now c = none := by
  cases h1 : c.text_elem with
  | none => simp [extractContainer, h1]
  | some t =>
    cases h2 : c.author_elem with
    | none => simp [extractContainer, h1, h2]
    | some a => simp [containerComplete, h1, h2] at h

/-- C4: extraction is total — on any document (empty ones and documents
with malformed containers included) it returns a list and never raises;
dropping the containers that miss their text or author sub-element does
not change the result (they are skipped silently), and every remaining
container contributes exactly one record (the batch is not aborted). -/
theorem extract_quotes_dynamic_total_skips (now : String) (soup : Document) :
    extract_quotes_dynamic now soup =
      extract_quotes_dynamic now (soup.filter containerComplete) ∧
    (extract_quotes_dynamic now soup).length =
      (soup.filter containerComplete).length := by
  simp only [extract_quotes_dynamic]
  induction soup with
  | nil => exact ⟨rfl, rfl⟩
  | cons c rest ih =>
    rw [List.filter_cons]
    by_cases hc : containerComplete c = true
    · obtain ⟨q, hq⟩ := extractContainer_complete now c hc
      rw [if_pos hc, List.filterMap_cons, List.filterMap_cons, hq]
      refine ⟨by rw [ih.1], ?_⟩
      simp only [List.length_cons, ih.2]
    · have hc' : containerComplete c = false := Bool.eq_false_iff.mpr hc
      have hnone := extractContainer_incomplete now c hc'
      rw [if_neg (by simp [hc']), List.filterMap_cons, hnone]
      exact ih

/-- C7 (code bug): author cleaning does not strip a case-variant "by "
prefix.  `replace('by ', '')` (scraper.py:323) is case-sensitive and not
anchored at the start: the capitalised prefix of `"By Jay Asher"` survives
untouched, while the interior (non-prefix) `"by "` of `"Stand by me"` is
deleted — both contradicting the claim, and both contradicting the
`AUTHOR_CLEAN` prefix table of config.py:150-152, which the scraper never
consults. -/
theorem clean_author_unanchored_case_sensitive :
    clean_author "By Jay Asher" = "By Jay Asher" ∧
    clean_author "BY A" = "BY A" ∧
    clean_author "Stand by me" = "Stand me" :=
  ⟨rfl, rfl, rfl⟩

/-- C2: inserting a batch of records whose texts are absent from the store
twice: the first call inserts more than zero rows, the second inserts
zero, and the number of stored rows is the same after the second call as
after the first. -/
theorem insert_quotes_idempotent (qs : List Quote) (db : QuotesTable)
    (hne : qs ≠ [])
    (hfresh : ∀ q ∈ qs, q.text ∉ db.map Quote.text) :
    0 < (insert_quotes qs db).1 ∧
    (insert_quotes qs (insert_quotes qs db).2).1 = 0 ∧
    (insert_quotes qs (insert_quotes qs db).2).2.length =
      (insert_quotes qs db).2.length := by
  have hdup : ∀ q ∈ qs, textStored ((insert_quotes qs db).2) q = true :=
    fun q hq => insertLoop_covers qs 0 db q hq
  have hsecond : insert_quotes qs (insert_quotes qs db).2 = (0, (insert_quotes qs db).2) :=
    insertLoop_all_dup qs 0 _ hdup
  refine ⟨?_, by rw [hsecond], by rw [hsecond]⟩
  obtain ⟨q, rest, rfl⟩ : ∃ q rest, qs = q :: rest := by
    cases qs with
    | nil => exact absurd rfl hne
    | cons q rest => exact ⟨q, rest, rfl⟩
  have hq0 : textStored db q = false := by
    rw [textStored_eq_contains, contains_eq_decide_mem]
    exact decide_eq_false (hfresh q (List.mem_cons_self q rest))
  rw [insert_quotes, insertLoop, if_neg (by simp [hq0])]
  exact Nat.lt_of_lt_of_le Nat.zero_lt_one (insertLoop_count_le rest 1 (db ++ [q]))

/-- Witness for C2: a one-record batch into an empty store. -/
theorem insert_quotes_idempotent_witness :
    0 < (insert_quotes [⟨"q1", "a1", [], "t"⟩] []).1 ∧
    (insert_quotes [⟨"q1", "a1", [], "t"⟩]
      (insert_quotes [⟨"q1", "a1", [], "t"⟩] []).2).1 = 0 ∧
    (insert_quotes [⟨"q1", "a1", [], "t"⟩]
      (insert_quotes [⟨"q1", "a1", [], "t"⟩] []).2).2.length =
      (insert_quotes [⟨"q1", "a1", [], "t"⟩] []).2.length :=
  insert_quotes_idempotent [⟨"q1", "a1", [], "t"⟩] []
    (by decide) (by intro q hq; simp)

/-- C10: `insert_quotes` returns a count between `0` and the batch length,
equal to the number of batch positions whose record text is neither
already stored before the call nor the text of an earlier record of the
same batch (deduplication applies within the batch as well). -/
theorem insert_quotes_count_characterisation (qs : List Quote) (db : QuotesTable) :
    (insert_quotes qs db).1 ≤ qs.length ∧
    (insert_quotes qs db).1 = freshCountSpec qs (db.map Quote.text) := by
  have hcount : (insert_quotes qs db).1 = freshCountSpec qs (db.map Quote.text) := by
    rw [insert_quotes, insertLoop_count qs 0 db, freshCountAux_eq_spec]
    omega
  refine ⟨?_, hcount⟩
  rw [hcount, freshCountSpec]
  calc ((List.range qs.length).filter (freshInBatch qs (db.map Quote.text))).length
      ≤ (List.range qs.length).length := List.length_filter_le _ _
    _ = qs.length := List.length_range qs.length

/-- C9: a date/time pair that does not parse as `DD/MM/YYYY` + `HH:MM`
into a valid datetime makes `schedule_scrape` return the rejection value
(`False`, no exception reaches the caller) and register nothing: the job
list after the call is exactly the job list before it. -/
theorem schedule_scrape_rejects_malformed (date_str time_str : String)
    (jobs : List Job) (h : parse_run_date date_str time_str = none) :
    schedule_scrape date_str time_str jobs = (false, jobs) := by
  simp [schedule_scrape, h]

/-- Witness for C9: 31 February 2025 is not a valid date. -/
theorem schedule_scrape_rejects_malformed_witness :
    schedule_scrape "31/02/2025" "10:00" [] = (false, []) :=
  schedule_scrape_rejects_malformed "31/02/2025" "10:00" [] (by decide)

/-- C5 counterexample: with the storage engine unavailable during the
ledger append, `log_execution` itself propagates the failure to its
caller (the sqlite exception leaves the method — there is no handler in
its body), refuting "does not propagate a failure to its caller" at this
concrete input. -/
theorem log_execution_propagates_failure :
    log_execution false 0 0 "success" "N/A" ⟨[], []⟩ =
      Except.error "database unavailable" := rfl

/-- C5 amended: `log_execution` raises when the storage engine is
unavailable during the ledger append; it is the scheduled-pipeline caller
`run_scrape_job` whose `except Exception` catches and reports the error,
so the run still completes, the record inserts committed before the
ledger write remain stored, and only the ledger row is lost. -/
theorem ledger_failure_keeps_committed_inserts (pages : Nat → Option Page)
    (st : SchedulerState) :
    (run_scrape_job pages false st).db.quotes =
      (insert_quotes (scrape_all_pages pages MAX_PAGES).1 st.db.quotes).2 ∧
    (run_scrape_job pages false st).db.history = st.db.history ∧
    (run_scrape_job pages false st).jobs = st.jobs := by
  refine ⟨?_, ?_, ?_⟩ <;> simp [run_scrape_job, log_execution]

/-- C6 counterexample: schedule a job, then let the pipeline run to
completion (a successful run: the first fetch fails, so the scrape
terminates with zero records and the ledger records `success`).  The
job's status in the scheduler's job list is still `"scheduled"` — not
`"completed"`, although the pipeline succeeded — because
`run_scrape_job` never touches `scheduled_jobs`. -/
theorem post_run_status_still_scheduled :
    ((run_scrape_job (fun _ => none) true
        { jobs := (schedule_scrape "01/01/2030" "08:00" []).2,
          db := { quotes := [], history := [] } }).jobs.map Job.status
      = ["scheduled"]) ∧
    ("scheduled" ≠ "completed") ∧ ("scheduled" ≠ "failed") := by
  refine ⟨by decide, by decide, by decide⟩

/-- C6 amended: after any pipeline run, every job's status is exactly what
it was before the run — `run_scrape_job` does not write to the
scheduler's job list, so a job scheduled as `"scheduled"` stays
`"scheduled"` in every reachable post-run state and never transitions to
`"completed"` or `"failed"`. -/
theorem run_scrape_job_leaves_jobs_unchanged (pages : Nat → Option Page)
    (ledgerAvailable : Bool) (st : SchedulerState) :
    (run_scrape_job pages ledgerAvailable st).jobs = st.jobs := rfl
